import Mathlib

/-!
Verification development for the `justodo` VS Code extension
(`src/Main.ts`, `src/Editor/Editor.ts`, `src/Todo/Todo.ts`,
`src/utils/getLanguageSymbol.ts`).

The TypeScript source is shallowly embedded: JavaScript strings become
`String`/`List Char`, JSON objects become association lists (key lookup is
first-match, as parsed JSON objects have unique keys), JSON `null` and an
absent property are both `none` (the code only ever distinguishes them by
truthiness), and the asynchronous editor/file effects become explicit
parameters and state passing.
-/

namespace Justodo

/-! ## JavaScript character classes

`\s` in a JavaScript RegExp matches WhiteSpace ∪ LineTerminator; the same set
is trimmed by `String.prototype.trim`.  We model the ASCII whitespace
characters plus NBSP, BOM and the two Unicode line separators (the other
Unicode `Zs` code points never occur in the inputs considered here). -/

/-- JavaScript LineTerminator characters (the characters `.` does not match). -/
def isLineTerm (c : Char) : Bool :=
  c = '\n' || c = '\r' || c = '\u2028' || c = '\u2029'

/-- JavaScript `\s` / `trim` whitespace. -/
def isJsWs (c : Char) : Bool :=
  c = ' ' || c = '\t' || c = '\x0b' || c = '\x0c' || c = '\u00a0' ||
  c = '\ufeff' || isLineTerm c

/-- Drop an exact literal prefix, returning the remainder (or `none`). -/
def dropLit : List Char → List Char → Option (List Char)
  | [], s => some s
  | _ :: _, [] => none
  | c :: cs, d :: ds => if c = d then dropLit cs ds else none

/-- Take exactly `n` ASCII digits (regex `[0-9]{n}`), returning them and the
remainder. -/
def takeDigits : Nat → List Char → Option (List Char × List Char)
  | 0, s => some ([], s)
  | _ + 1, [] => none
  | n + 1, c :: s =>
    if c.isDigit then (takeDigits n s).map (fun p => (c :: p.1, p.2))
    else none

/-! ## Comment grammar table — `src/utils/getLanguageSymbol.ts` -/

/-- `getCommentSymbol(languageId)`: the static language → line-comment-marker
table, falling back to `//` for unknown identifiers
(`commentMap[languageId] || '//'`). -/
def getCommentSymbol (languageId : String) : String :=
  match languageId with
  | "javascript" => "//"
  | "typescript" => "//"
  | "python" => "#"
  | "java" => "//"
  | "c" => "//"
  | "cpp" => "//"
  | "csharp" => "//"
  | "go" => "//"
  | "rust" => "//"
  | "php" => "//"
  | "ruby" => "#"
  | "swift" => "//"
  | "kotlin" => "//"
  | "dart" => "//"
  | "html" => "<!--"
  | "css" => "/*"
  | "scss" => "//"
  | "less" => "//"
  | "yaml" => "#"
  | "toml" => "#"
  | "json" => "//"
  | "jsonc" => "//"
  | "xml" => "<!--"
  | "markdown" => "<!--"
  | "shellscript" => "#"
  | "powershell" => "#"
  | "bat" => "REM"
  | "sql" => "--"
  | "lua" => "--"
  | "perl" => "#"
  | "r" => "#"
  | "vue" => "//"
  | "svelte" => "//"
  | "coffeescript" => "#"
  | "dockerfile" => "#"
  | "makefile" => "#"
  | "ini" => ";"
  | _ => "//"

/-! ## Line parser — `Editor.parseTodoAtLine`

The source builds
`new RegExp("^\\s*" + commentSymbol + "\\s*TODO(?:<([0-9]{8}-[0-9]{6})>)?:\\s*(.+)$")`
with the comment symbol spliced in UNESCAPED.  Every symbol in the table is a
sequence of regex-literal characters except `/*` (css), where the `*` is a
quantifier: the regex fragment `/*` matches zero or more `/` characters.

The functions below implement the exact backtracking semantics of the regexes
this template can produce:
* `^\s*` followed by a fragment whose first character is never whitespace is
  deterministic (greedy, no productive backtracking);
* the fragment `/*` followed by `\s*TODO` is deterministic: consuming fewer
  than the maximal run of `/` leaves a `/` where `\s*TODO` must match, which
  fails at once;
* the optional group `(?:<(uid)>)?` is fixed-length, and is followed by `:`;
  since `<` ≠ `:`, the group matches fully (then `:` must follow) or is empty;
* `\s*(.+)$` succeeds iff some suffix of the remainder is non-empty and free
  of LineTerminators once leading `\s` is given up; the captured group,
  after the source's `.trim()`, equals the remainder trimmed. -/

/-- Result type of the line parser (`ParsedTodo` in `src/types/ParsedTodo`).
`hasUID` is `Boolean(match[1])`; a captured identifier is 15 characters, so
it is truthy exactly when present. -/
structure ParsedTodo where
  heading : String
  hasUID : Bool
  existingUID : Option String
deriving DecidableEq

/-- Match the spliced comment-symbol fragment of the regex at the head of
`s`.  For the one non-literal symbol `/*` this is the quantifier `/​*`
(zero or more slashes, greedy — deterministic here, see above); all other
table symbols are matched literally. -/
def matchSym (sym : String) (s : List Char) : Option (List Char) :=
  if sym = "/*" then some (s.dropWhile (fun c => c = '/'))
  else dropLit sym.toList s

/-- Match `<([0-9]{8}-[0-9]{6})>` at the head of the input, returning the
captured identifier and the remainder. -/
def matchUid (s : List Char) : Option (String × List Char) :=
  match s with
  | '<' :: s1 =>
    match takeDigits 8 s1 with
    | none => none
    | some (d8, s2) =>
      match s2 with
      | '-' :: s3 =>
        match takeDigits 6 s3 with
        | none => none
        | some (d6, s4) =>
          match s4 with
          | '>' :: s5 => some (String.mk (d8 ++ '-' :: d6), s5)
          | _ => none
      | _ => none
  | _ => none

/-- Remove trailing JavaScript whitespace. -/
def trimTrailing (l : List Char) : List Char :=
  (l.reverse.dropWhile isJsWs).reverse

/-- The tail `\s*(.+)$` of the regex applied to the remainder after the colon,
composed with the source's `heading.trim()`:  fails iff no suffix reachable by
giving up leading `\s` characters is a non-empty LineTerminator-free run to
the end of the string; on success the trimmed capture equals the trimmed
remainder. -/
def headingOf (rest : List Char) : Option String :=
  let t := rest.dropWhile isJsWs
  match t with
  | [] =>
    match rest.getLast? with
    | none => none
    | some c => if isLineTerm c then none else some ""
  | _ :: _ =>
    if t.any isLineTerm then none else some (String.mk (trimTrailing t))

/-- The body of `Editor.parseTodoAtLine` for a given comment symbol:
`lineText.match(regex)` with the regex described above, then
`{ heading: heading.trim(), hasUID: Boolean(uid), existingUID: uid }`. -/
def parseTodoLineWith (commentSymbol : String) (lineText : String) : Option ParsedTodo :=
  let s0 := lineText.toList.dropWhile isJsWs
  match matchSym commentSymbol s0 with
  | none => none
  | some s1 =>
    let s2 := s1.dropWhile isJsWs
    match dropLit "TODO".toList s2 with
    | none => none
    | some s3 =>
      match matchUid s3 with
      | some (uid, s4) =>
        match s4 with
        | ':' :: s5 =>
          match headingOf s5 with
          | none => none
          | some h => some { heading := h, hasUID := true, existingUID := some uid }
        | _ => none
      | none =>
        match s3 with
        | ':' :: s5 =>
          match headingOf s5 with
          | none => none
          | some h => some { heading := h, hasUID := false, existingUID := none }
        | _ => none

/-- `Editor.parseTodoAtLine`: looks up the comment symbol for the document's
language identifier and matches the line text. -/
def parseTodoAtLine (languageId lineText : String) : Option ParsedTodo :=
  parseTodoLineWith (getCommentSymbol languageId) lineText

/-- The line written by `TodoManager.createTodo`:
the template literal `SYMBOL TODO<huid>: heading`. -/
def createTodoLine (languageId huid heading : String) : String :=
  getCommentSymbol languageId ++ " TODO<" ++ huid ++ ">: " ++ heading

/-! ## Persisted log store — `src/Todo/Todo.ts`

`todos.json` is a root object whose `todos` field (possibly absent) is an
array; each element is an object mapping a file path to an object mapping a
HUID to a fields object.  Objects are association lists; lookup is
first-match.  Timestamps are modelled as their serialized strings (they are
serialized on every write anyway). -/

/-- The per-entry fields object.  `addTodo` writes
`{heading, done, line, createdAt, markedAt: null}`; `markTodoAsDone` later
adds a `modifiedAt` property.  `none` stands for both JSON `null` and an
absent property. -/
structure TodoFields where
  heading : String
  done : Bool
  line : Int
  createdAt : String
  markedAt : Option String
  modifiedAt : Option String
deriving DecidableEq

/-- One element of the `todos` array: an object `filePath → (huid → fields)`. -/
abbrev TodoEntry := List (String × List (String × TodoFields))

/-- The root JSON document: `todos` is `none` when the field is absent or
`undefined`. -/
structure TodosJson where
  todos : Option (List TodoEntry)
deriving DecidableEq

/-- The `TodoItem` interface of `src/types/TodoItem.ts` (the argument of
`addTodo` and the elements returned by `getTodosInFile`). -/
structure TodoItem where
  huid : String
  heading : String
  filePath : String
  line : Int
  done : Bool
  createdAt : String
  markedAt : Option String
deriving DecidableEq

/-- JavaScript property read `obj[key]` on a parsed-JSON object
(association list with unique keys; first match). -/
def jsGet {α : Type} : List (String × α) → String → Option α
  | [], _ => none
  | (k, v) :: rest, key => if k = key then some v else jsGet rest key

/-- JavaScript in-place update of an existing property: replace the value at
`key` (no-op when the key is absent — the source only assigns through a
property it has just read). -/
def jsSet {α : Type} : List (String × α) → String → α → List (String × α)
  | [], _, _ => []
  | (k, v) :: rest, key, newV =>
    if k = key then (k, newV) :: rest else (k, v) :: jsSet rest key newV

/-- The loop condition `todoEntry[filePath] && todoEntry[filePath][huid]`
(the nested objects are always truthy when present). -/
def entryHas (e : TodoEntry) (filePath huid : String) : Bool :=
  match jsGet e filePath with
  | some ft => (jsGet ft huid).isSome
  | none => false

/-- `todoEntry[filePath]` followed by `[huid]`, as data. -/
def pairFields (e : TodoEntry) (filePath huid : String) : Option TodoFields :=
  match jsGet e filePath with
  | some ft => jsGet ft huid
  | none => none

/-- The fields object pushed by `Todo.addTodo`. -/
def newTodoFields (t : TodoItem) : TodoFields :=
  { heading := t.heading, done := t.done, line := t.line,
    createdAt := t.createdAt, markedAt := none, modifiedAt := none }

/-- The single-key grouping object pushed by `Todo.addTodo`:
`{ [filePath]: { [huid]: fields } }`. -/
def newTodoEntry (t : TodoItem) : TodoEntry :=
  [(t.filePath, [(t.huid, newTodoFields t)])]

/-- `Todo.addTodo` (the in-memory document transformation between the read
and the write): create `todos` as `[]` when absent, then push the new
grouping object. -/
def addTodo (log : TodosJson) (t : TodoItem) : TodosJson :=
  let entries := match log.todos with
    | none => []
    | some l => l
  { todos := some (entries ++ [newTodoEntry t]) }

/-- The loop body of `Todo.markTodoAsDone`:
`todoEntry[filePath][huid].done = true;`
`todoEntry[filePath][huid].modifiedAt = <now>;`
(note: the source sets `modifiedAt`, not `markedAt`). -/
def markEntry (filePath huid now : String) (e : TodoEntry) : TodoEntry :=
  match jsGet e filePath with
  | none => e
  | some ft =>
    match jsGet ft huid with
    | none => e
    | some flds =>
      jsSet e filePath
        (jsSet ft huid { flds with done := true, modifiedAt := some now })

/-- The `for ... of todosJson.todos` loop of `Todo.markTodoAsDone`: mutate
the first element satisfying the condition, then `break`. -/
def markFirst (filePath huid now : String) : List TodoEntry → List TodoEntry
  | [] => []
  | e :: rest =>
    if entryHas e filePath huid then markEntry filePath huid now e :: rest
    else e :: markFirst filePath huid now rest

/-- `Todo.markTodoAsDone` as the in-memory document transformation.  When
`todos` is absent the `for...of` throws, the `catch` reports, and no write
happens: the document is unchanged. -/
def markTodoAsDone (log : TodosJson) (filePath huid now : String) : TodosJson :=
  match log.todos with
  | none => log
  | some entries => { todos := some (markFirst filePath huid now entries) }

/-- `Todo.HuidExists`: scan for an element with both the file path and the
HUID; iterating an absent `todos` throws and the `catch` returns `false`. -/
def HuidExists (log : TodosJson) (filePath huid : String) : Bool :=
  match log.todos with
  | none => false
  | some entries => entries.any (fun e => entryHas e filePath huid)

/-- The inner loop of `Todo.getTodosInFile` for one array element:
`for (const huid in fileTodos)` over insertion-ordered keys, rebuilding a
`TodoItem` with the stored line converted to 0-based and the falsy-`markedAt`
check (`todoData.markedAt ? new Date(...) : undefined`). -/
def entryToItems (filePathStr : String) (e : TodoEntry) : List TodoItem :=
  match jsGet e filePathStr with
  | none => []
  | some ft =>
    ft.map (fun p =>
      { huid := p.1, heading := p.2.heading, filePath := filePathStr,
        line := p.2.line - 1, done := p.2.done, createdAt := p.2.createdAt,
        markedAt := p.2.markedAt })

/-- `Todo.getTodosInFile`: flatten the per-file mappings of every matching
element; any read failure (including an absent `todos`) yields `[]`. -/
def getTodosInFile (log : TodosJson) (filePathStr : String) : List TodoItem :=
  match log.todos with
  | none => []
  | some entries => entries.flatMap (entryToItems filePathStr)

/-! ## The Complete operation — `TodoManager.markTodoDone`

The flow reads the cursor line, parses it, checks the HUID guards, deletes
the line, and updates the log.  Editor effects are made explicit:
`removeOk` is the boolean the `removeTodoLine` Thenable resolves to (the
source awaits it but DISCARDS it); the document is the list of its lines and
deleting line `i` removes that element.  The `notification` field records
which user-visible message the operation ends with, and the two `...Called`
flags record which effects were invoked. -/

/-- Outcome notification of `markTodoDone`, one per `return`/fall-through
path of the source. -/
inductive MarkDoneOutcome where
  | errNoTodo
  | errNoHuid
  | errHuidNotFound
  | doneSuccess (huid : String)
deriving DecidableEq

/-- State after a `markTodoDone` invocation. -/
structure MarkDoneResult where
  doc : List String
  log : TodosJson
  removeLineCalled : Bool
  markDoneCalled : Bool
  outcome : MarkDoneOutcome
deriving DecidableEq

/-- `Editor.removeTodoLine` on a successfully applied edit: delete the line
(with its terminator), i.e. remove element `i`. -/
def removeLine (doc : List String) (i : Nat) : List String :=
  doc.take i ++ doc.drop (i + 1)

/-- `TodoManager.markTodoDone`.  `currentLine` is the cursor line (always in
range in the host, so out-of-range reads default to `""`), `removeOk` the
result the `removeTodoLine` edit resolves to.  The source awaits
`removeTodoLine` but never inspects its result, then always calls
`markTodoAsDone`. -/
def markTodoDone (languageId : String) (doc : List String) (currentLine : Nat)
    (filePath : String) (log : TodosJson) (removeOk : Bool) (now : String) :
    MarkDoneResult :=
  let lineText := (doc.get? currentLine).getD ""
  match parseTodoAtLine languageId lineText with
  | none => ⟨doc, log, false, false, .errNoTodo⟩
  | some p =>
    if p.hasUID = false then ⟨doc, log, false, false, .errNoHuid⟩
    else
      let uid := p.existingUID.getD ""
      if HuidExists log filePath uid = false then
        ⟨doc, log, false, false, .errHuidNotFound⟩
      else
        ⟨if removeOk then removeLine doc currentLine else doc,
         markTodoAsDone log filePath uid now,
         true, true, .doneSuccess uid⟩

/-! ## Operation sequences on the log

Only `addTodo` and `markTodoAsDone` ever change the document between its
read and its write; a history of the store is a list of these operations. -/

/-- One mutating store operation. -/
inductive LogOp where
  | add (t : TodoItem)
  | mark (filePath huid now : String)

/-- Apply one operation to the in-memory document. -/
def applyOp (log : TodosJson) : LogOp → TodosJson
  | .add t => addTodo log t
  | .mark filePath huid now => markTodoAsDone log filePath huid now

/-- Apply a history of operations in order. -/
def applyOps (log : TodosJson) (ops : List LogOp) : TodosJson :=
  ops.foldl applyOp log

/-- Number of elements of the `todos` array (0 when the field is absent). -/
def todosLength (log : TodosJson) : Nat :=
  (log.todos.getD []).length

/-! ## Helper lemmas on object lookup and update -/

/-- Reading back through an in-place property update. -/
theorem jsGet_jsSet {α : Type} (l : List (String × α)) (k : String) (v : α)
    (k' : String) :
    jsGet (jsSet l k v) k'
      = if k' = k then (jsGet l k).map (fun _ => v) else jsGet l k' := by
  induction l with
  | nil =>
    simp only [jsSet, jsGet]
    split <;> rfl
  | cons a rest ih =>
    obtain ⟨ka, va⟩ := a
    by_cases hka : ka = k
    · subst hka
      by_cases hk' : k' = ka
      · subst hk'
        simp [jsGet, jsSet]
      · have hka' : ¬ ka = k' := fun hh => hk' hh.symm
        simp [jsGet, jsSet, hk', hka']
    · by_cases hk' : k' = k
      · subst hk'
        simp [jsGet, jsSet, hka, ih]
      · by_cases hkk : ka = k'
        · subst hkk
          simp [jsGet, jsSet, hka, hk']
        · simp [jsGet, jsSet, hka, hk', hkk, ih]

/-- The loop condition is the definedness of the two-step lookup. -/
theorem entryHas_eq_pairFields (e : TodoEntry) (f h : String) :
    entryHas e f h = (pairFields e f h).isSome := by
  unfold entryHas pairFields
  cases jsGet e f <;> simp

/-- `markEntry` never adds or removes keys: the loop condition is unchanged
by the loop body, for every file path / HUID pair. -/
theorem entryHas_markEntry (e : TodoEntry) (f' h' now f h : String) :
    entryHas (markEntry f' h' now e) f h = entryHas e f h := by
  rcases hft : jsGet e f' with _ | ft
  · simp only [markEntry, hft]
  · rcases hfl : jsGet ft h' with _ | flds
    · simp only [markEntry, hft, hfl]
    · simp only [markEntry, hft, hfl]
      unfold entryHas
      rw [jsGet_jsSet]
      by_cases hf : f = f'
      · subst hf
        rw [if_pos rfl, hft]
        simp only [Option.map_some']
        rw [jsGet_jsSet]
        by_cases hh : h = h'
        · subst hh
          rw [if_pos rfl, hfl]
          simp
        · rw [if_neg hh]
      · rw [if_neg hf]

/-- `pairFields` at the updated pair after the loop body. -/
theorem pairFields_markEntry_self (e : TodoEntry) (f h now : String)
    (flds : TodoFields) (hp : pairFields e f h = some flds) :
    pairFields (markEntry f h now e) f h
      = some (TodoFields.mk flds.heading true flds.line flds.createdAt
          flds.markedAt (some now)) := by
  rcases hft : jsGet e f with _ | ft
  · simp only [pairFields, hft] at hp
    exact absurd hp (by simp)
  · simp only [pairFields, hft] at hp
    simp only [markEntry, hft, hp]
    rw [pairFields, jsGet_jsSet, if_pos rfl, hft]
    simp only [Option.map_some']
    rw [jsGet_jsSet, if_pos rfl, hp]
    rfl

/-- `pairFields` at every other pair is unchanged by the loop body. -/
theorem pairFields_markEntry_other (e : TodoEntry) (f h now f' h' : String)
    (hne : f' ≠ f ∨ h' ≠ h) :
    pairFields (markEntry f h now e) f' h' = pairFields e f' h' := by
  rcases hft : jsGet e f with _ | ft
  · simp only [markEntry, hft]
  · rcases hfl : jsGet ft h with _ | flds
    · simp only [markEntry, hft, hfl]
    · simp only [markEntry, hft, hfl]
      rw [pairFields, jsGet_jsSet]
      by_cases hf : f' = f
      · subst hf
        rw [if_pos rfl, hft]
        simp only [Option.map_some']
        rw [jsGet_jsSet]
        rcases hne with hne | hne
        · exact absurd rfl hne
        · rw [if_neg hne, pairFields, hft]
      · rw [if_neg hf, pairFields]

/-- Shape of one `markTodoAsDone` scan: either no element satisfies the loop
condition and the array is returned unchanged, or the array splits around the
first element that does, only that element being rewritten by the loop
body. -/
theorem markFirst_spec (f h now : String) (l : List TodoEntry) :
    ((∀ e ∈ l, entryHas e f h = false) ∧ markFirst f h now l = l) ∨
    (∃ l₁ e l₂, l = l₁ ++ e :: l₂ ∧
      (∀ e' ∈ l₁, entryHas e' f h = false) ∧ entryHas e f h = true ∧
      markFirst f h now l = l₁ ++ markEntry f h now e :: l₂) := by
  induction l with
  | nil => exact Or.inl ⟨by simp, rfl⟩
  | cons a rest ih =>
    by_cases ha : entryHas a f h = true
    · refine Or.inr ⟨[], a, rest, by simp, by simp, ha, ?_⟩
      simp [markFirst, ha]
    · have ha' : entryHas a f h = false := by
        cases hv : entryHas a f h
        · rfl
        · exact absurd hv ha
      rcases ih with ⟨hall, heq⟩ | ⟨l₁, e, l₂, hsplit, h₁, h₂, heq⟩
      · refine Or.inl ⟨?_, ?_⟩
        · intro e he
          rcases List.mem_cons.mp he with rfl | he
          · exact ha'
          · exact hall e he
        · simp [markFirst, ha', heq]
      · refine Or.inr ⟨a :: l₁, e, l₂, by simp [hsplit], ?_, h₂, ?_⟩
        · intro e' he'
          rcases List.mem_cons.mp he' with rfl | he'
          · exact ha'
          · exact h₁ e' he'
        · simp [markFirst, ha', heq]

/-- The scan neither adds nor removes array elements. -/
theorem markFirst_length (f h now : String) (l : List TodoEntry) :
    (markFirst f h now l).length = l.length := by
  induction l with
  | nil => rfl
  | cons a rest ih =>
    by_cases ha : entryHas a f h = true <;>
      simp [markFirst, ha, ih]

/-- Presence of any (file path, HUID) pair is invariant under the scan. -/
theorem markFirst_any_entryHas (f' h' now f h : String) (l : List TodoEntry) :
    (markFirst f' h' now l).any (fun e => entryHas e f h)
      = l.any (fun e => entryHas e f h) := by
  induction l with
  | nil => rfl
  | cons a rest ih =>
    by_cases ha : entryHas a f' h' = true <;>
      simp [markFirst, ha, ih, entryHas_markEntry]

/-! ## Claim C1 — removal failure and the log update -/

/-- Claim C1 as stated is false: with the guards passing and the
`removeTodoLine` edit resolving to `false`, `markTodoAsDone` is still called
and the log document changes (the source never inspects the removal's
result).  Concrete run: one recorded TODO, cursor on its line, removal
fails. -/
theorem markTodoDone_removal_failure_updates_log_cex :
    (markTodoDone "typescript" ["// TODO<12345678-123456>: fix"] 0 "f"
      (TodosJson.mk (some [[("f", [("12345678-123456",
        TodoFields.mk "fix" false 1 "c" none none)])]])) false "T").markDoneCalled
      = true ∧
    (markTodoDone "typescript" ["// TODO<12345678-123456>: fix"] 0 "f"
      (TodosJson.mk (some [[("f", [("12345678-123456",
        TodoFields.mk "fix" false 1 "c" none none)])]])) false "T").log
      ≠ TodosJson.mk (some [[("f", [("12345678-123456",
        TodoFields.mk "fix" false 1 "c" none none)])]]) := by
  decide

/-- Claim C1 (amended): when `removeTodoLine` resolves to `false` but all the
guards pass, `markTodoAsDone` is called anyway — the removal's result is
discarded, so the log is updated exactly as it would be on a successful
removal, while the document keeps its line. -/
theorem markTodoDone_updates_log_despite_removal_failure
    (languageId : String) (doc : List String) (i : Nat) (filePath : String)
    (log : TodosJson) (now uid : String)
    (h : (markTodoDone languageId doc i filePath log false now).outcome
          = MarkDoneOutcome.doneSuccess uid) :
    (markTodoDone languageId doc i filePath log false now).markDoneCalled = true ∧
    (markTodoDone languageId doc i filePath log false now).log
      = markTodoAsDone log filePath uid now ∧
    (markTodoDone languageId doc i filePath log false now).doc = doc := by
  unfold markTodoDone at h ⊢
  rcases hp : parseTodoAtLine languageId ((doc.get? i).getD "") with _ | p <;>
      simp only [hp] at h ⊢
  · simp at h
  · by_cases hu : p.hasUID = false
    · rw [if_pos hu] at h; simp at h
    · rw [if_neg hu] at h ⊢
      by_cases he : HuidExists log filePath (p.existingUID.getD "") = false
      · rw [if_pos he] at h; simp at h
      · rw [if_neg he] at h ⊢
        obtain rfl : p.existingUID.getD "" = uid := by simpa using h
        exact ⟨rfl, rfl, rfl⟩

/-- Witness for `markTodoDone_updates_log_despite_removal_failure` at a
concrete recorded TODO. -/
theorem markTodoDone_updates_log_despite_removal_failure_wit :
    (markTodoDone "typescript" ["// TODO<12345678-123456>: fix"] 0 "f"
      (TodosJson.mk (some [[("f", [("12345678-123456",
        TodoFields.mk "fix" false 1 "c" none none)])]])) false "T").log
      = markTodoAsDone
          (TodosJson.mk (some [[("f", [("12345678-123456",
            TodoFields.mk "fix" false 1 "c" none none)])]])) "f"
          "12345678-123456" "T" :=
  (markTodoDone_updates_log_despite_removal_failure "typescript"
    ["// TODO<12345678-123456>: fix"] 0 "f"
    (TodosJson.mk (some [[("f", [("12345678-123456",
      TodoFields.mk "fix" false 1 "c" none none)])]])) "T" "12345678-123456"
    (by decide)).2.1

/-! ## Claim C2 — `markedAt` after completion -/

/-- Claim C2 fails on the code: a successful Complete on a recorded TODO sets
`done = true` but writes the timestamp into a NEW `modifiedAt` property;
`markedAt` (initialized to `null` by `addTodo`, reported by
`getTodosInFile`, documented in the README) stays `null`.  Concrete run
recorded with `addTodo`, completed with the full `markTodoDone` flow. -/
theorem markTodoAsDone_leaves_markedAt_null :
    getTodosInFile
      (addTodo (TodosJson.mk (some []))
        (TodoItem.mk "12345678-123456" "fix" "f" 1 false "c0" none)) "f"
      = [TodoItem.mk "12345678-123456" "fix" "f" 0 false "c0" none] ∧
    (markTodoDone "typescript" ["// TODO<12345678-123456>: fix"] 0 "f"
      (addTodo (TodosJson.mk (some []))
        (TodoItem.mk "12345678-123456" "fix" "f" 1 false "c0" none))
      true "T").outcome = MarkDoneOutcome.doneSuccess "12345678-123456" ∧
    getTodosInFile
      (markTodoDone "typescript" ["// TODO<12345678-123456>: fix"] 0 "f"
        (addTodo (TodosJson.mk (some []))
          (TodoItem.mk "12345678-123456" "fix" "f" 1 false "c0" none))
        true "T").log "f"
      = [TodoItem.mk "12345678-123456" "fix" "f" 0 true "c0" none] := by
  decide

/-! ## Claim C3 — lines rejected by the grammar -/

/-- Claim C3 fails on the code: the comment symbol is spliced into the regex
unescaped, so for `css` the marker `/*` becomes the quantifier "zero or more
`/`" — the markerless line `TODO: x` parses successfully instead of
returning `null`, while the line actually carrying the `/*` marker fails to
parse. -/
theorem parseTodoAtLine_css_accepts_markerless_line :
    parseTodoAtLine "css" "TODO: x"
      = some (ParsedTodo.mk "x" false none) ∧
    parseTodoAtLine "css" "/* TODO: x" = none := by
  decide

/-! ## Claim C4 — reparsing the line written by Create -/

/-- Claim C4 fails on the code: for `css` the line written by Create,
`/* TODO<id>: heading`, is NOT reparsed — the unescaped `/*` in the parsing
regex consumes the `/` as "zero or more slashes" and then requires `TODO`
where `*` stands, so the parser returns `null` instead of a `ParsedTodo`
with the produced identifier and heading. -/
theorem createTodoLine_css_not_reparsed :
    createTodoLine "css" "12345678-123456" "x" = "/* TODO<12345678-123456>: x" ∧
    parseTodoAtLine "css" (createTodoLine "css" "12345678-123456" "x") = none ∧
    parseTodoAtLine "typescript" (createTodoLine "typescript" "12345678-123456" "x")
      = some (ParsedTodo.mk "x" true (some "12345678-123456")) := by
  decide

/-! ## Claim C5 — store round-trip -/

/-- Claim C5 as stated is false for entries carrying a completion timestamp:
`addTodo` always stores `markedAt: null` (it never reads the argument's
`markedAt`), so after `addTodo(e)` with `e.markedAt = some "m"` no entry
returned by `getTodosInFile(e.filePath)` has `e`'s timestamps. -/
theorem addTodo_roundtrip_drops_markedAt_cex :
    getTodosInFile
      (addTodo (TodosJson.mk (some []))
        (TodoItem.mk "h" "a" "f" 5 true "c" (some "m"))) "f"
      = [TodoItem.mk "h" "a" "f" 4 true "c" none] ∧
    (getTodosInFile
      (addTodo (TodosJson.mk (some []))
        (TodoItem.mk "h" "a" "f" 5 true "c" (some "m"))) "f").all
      (fun t => t.markedAt != some "m") = true := by
  decide

/-! ## Claim C6 — first-match semantics of log scans -/

/-- Claim C6 as stated is false: with two sequence elements for the same file
path, a lookup/mutation for an identifier held by the SECOND element does
consult and modify it — the scan skips a file-path match that lacks the
identifier (the loop condition requires both `todoEntry[filePath]` and
`todoEntry[filePath][huid]`). -/
theorem huidExists_consults_later_elements_cex :
    HuidExists
      (TodosJson.mk (some
        [[("f", [("h1", TodoFields.mk "a" false 1 "c1" none none)])],
         [("f", [("h2", TodoFields.mk "b" false 2 "c2" none none)])]]))
      "f" "h2" = true ∧
    markTodoAsDone
      (TodosJson.mk (some
        [[("f", [("h1", TodoFields.mk "a" false 1 "c1" none none)])],
         [("f", [("h2", TodoFields.mk "b" false 2 "c2" none none)])]]))
      "f" "h2" "T"
      = TodosJson.mk (some
        [[("f", [("h1", TodoFields.mk "a" false 1 "c1" none none)])],
         [("f", [("h2", TodoFields.mk "b" true 2 "c2" none (some "T"))])]]) := by
  decide

/-- Claim C5 (amended): `addTodo(e)` followed by `getTodosInFile(e.filePath)`
yields a sequence containing an entry with `e`'s identifier, heading, file
path, done flag and creation timestamp, with the stored 1-based line
converted to 0-based — but with `markedAt` reset to null, since `addTodo`
always stores `markedAt: null` whatever the argument carried. -/
theorem addTodo_getTodosInFile_roundtrip (log : TodosJson) (e : TodoItem) :
    TodoItem.mk e.huid e.heading e.filePath (e.line - 1) e.done e.createdAt none
      ∈ getTodosInFile (addTodo log e) e.filePath := by
  have hitem :
      entryToItems e.filePath (newTodoEntry e)
        = [TodoItem.mk e.huid e.heading e.filePath (e.line - 1) e.done
            e.createdAt none] := by
    simp [entryToItems, newTodoEntry, newTodoFields, jsGet]
  rcases log with ⟨_ | l⟩ <;>
    · simp only [addTodo, getTodosInFile]
      rw [List.flatMap_append]
      simp [hitem]

/-! ## Claim C6 — amended first-match semantics -/

/-- Claim C6 (amended): lookups and mutations scan the `todos` sequence and
act on the first element that has the target file path as an outer key AND
the identifier under it; that element alone is rewritten by `markDone`,
elements before it (which lack the pair) and after it are returned
unchanged, and `HuidExists` is true. -/
theorem log_scan_first_pair_match (l₁ : List TodoEntry) (e : TodoEntry)
    (l₂ : List TodoEntry) (f h now : String)
    (h₁ : ∀ e' ∈ l₁, entryHas e' f h = false) (h₂ : entryHas e f h = true) :
    HuidExists (TodosJson.mk (some (l₁ ++ e :: l₂))) f h = true ∧
    (markTodoAsDone (TodosJson.mk (some (l₁ ++ e :: l₂))) f h now).todos
      = some (l₁ ++ markEntry f h now e :: l₂) := by
  constructor
  · simp only [HuidExists, List.any_append, List.any_cons]
    simp [h₂]
  · simp only [markTodoAsDone]
    congr 1
    induction l₁ with
    | nil => simp [markFirst, h₂]
    | cons a rest ih =>
      have ha : entryHas a f h = false := h₁ a (by simp)
      have hrest : ∀ e' ∈ rest, entryHas e' f h = false := by
        intro e' he'
        exact h₁ e' (by simp [he'])
      simp [markFirst, ha, ih hrest]

/-- Witness for `log_scan_first_pair_match`: a log whose first element for
file path `f` lacks the identifier, followed by the element that has it and
one further element. -/
theorem log_scan_first_pair_match_wit :
    HuidExists (TodosJson.mk (some
      ([[("f", [("h1", TodoFields.mk "a" false 1 "c1" none none)])]] ++
        [("f", [("h2", TodoFields.mk "b" false 2 "c2" none none)])] ::
        [[("g", [("h3", TodoFields.mk "d" false 3 "c3" none none)])]])))
      "f" "h2" = true :=
  (log_scan_first_pair_match
    [[("f", [("h1", TodoFields.mk "a" false 1 "c1" none none)])]]
    [("f", [("h2", TodoFields.mk "b" false 2 "c2" none none)])]
    [[("g", [("h3", TodoFields.mk "d" false 3 "c3" none none)])]]
    "f" "h2" "T" (by decide) (by decide)).1

/-! ## Claim C7 — `entryExists` before and after `addEntry` -/

/-- Claim C7: on a log document with no element holding the
(filePath, identifier) pair, `HuidExists` returns `false`; and immediately
after `addTodo` with that pair it returns `true` (the pushed grouping object
carries exactly that file path and HUID). -/
theorem huidExists_false_before_true_after_addTodo (log : TodosJson)
    (f h : String) (e : TodoItem)
    (hno : ∀ l, log.todos = some l → ∀ en ∈ l, pairFields en f h = none) :
    HuidExists log f h = false ∧
    HuidExists (addTodo log e) e.filePath e.huid = true := by
  constructor
  · rcases hl : log.todos with _ | l
    · simp [HuidExists, hl]
    · simp only [HuidExists, hl]
      rw [List.any_eq_false]
      intro en hen
      rw [entryHas_eq_pairFields, hno l hl en hen]
      simp
  · have hnew : entryHas (newTodoEntry e) e.filePath e.huid = true := by
      simp [entryHas, newTodoEntry, jsGet]
    rcases log with ⟨_ | l⟩ <;>
      simp [HuidExists, addTodo, hnew]

/-- Witness for `huidExists_false_before_true_after_addTodo`: the empty log
and the entry of Scenario 1. -/
theorem huidExists_false_before_true_after_addTodo_wit :
    HuidExists (TodosJson.mk (some [])) "f" "20251208-161530" = false ∧
    HuidExists
      (addTodo (TodosJson.mk (some []))
        (TodoItem.mk "20251208-161530" "fix bug" "f" 1 false "c" none))
      "f" "20251208-161530" = true :=
  huidExists_false_before_true_after_addTodo (TodosJson.mk (some []))
    "f" "20251208-161530"
    (TodoItem.mk "20251208-161530" "fix bug" "f" 1 false "c" none)
    (by intro l hl en hen; simp_all)

/-! ## Claim C8 — Complete aborts when the identifier is not recorded -/

/-- Claim C8: when the parsed line carries an identifier that `HuidExists`
does not find for the current file path, `markTodoDone` ends with the
"no TODO found with HUID" notification and aborts before any effect: the
document and the log are unchanged and neither `removeTodoLine` nor
`markTodoAsDone` is invoked. -/
theorem markTodoDone_aborts_when_huid_not_recorded (languageId : String)
    (doc : List String) (i : Nat) (filePath : String) (log : TodosJson)
    (removeOk : Bool) (now : String) (p : ParsedTodo)
    (hp : parseTodoAtLine languageId ((doc.get? i).getD "") = some p)
    (hu : p.hasUID = true)
    (hne : HuidExists log filePath (p.existingUID.getD "") = false) :
    markTodoDone languageId doc i filePath log removeOk now
      = ⟨doc, log, false, false, MarkDoneOutcome.errHuidNotFound⟩ := by
  unfold markTodoDone
  simp only [hp]
  rw [if_neg (by simp [hu])]
  rw [if_pos hne]

/-- Witness for `markTodoDone_aborts_when_huid_not_recorded`: Scenario 4,
a line with identifier `99999999-999999` never added to the log. -/
theorem markTodoDone_aborts_when_huid_not_recorded_wit :
    markTodoDone "typescript" ["// TODO<99999999-999999>: x"] 0 "f"
      (TodosJson.mk (some [])) true "T"
      = ⟨["// TODO<99999999-999999>: x"], TodosJson.mk (some []),
         false, false, MarkDoneOutcome.errHuidNotFound⟩ :=
  markTodoDone_aborts_when_huid_not_recorded "typescript"
    ["// TODO<99999999-999999>: x"] 0 "f" (TodosJson.mk (some [])) true "T"
    (ParsedTodo.mk "x" true (some "99999999-999999"))
    (by decide) (by decide) (by decide)

/-! ## Claim C9 — the log is append-only -/

/-- Presence of a pair is invariant under `markTodoAsDone`. -/
theorem huidExists_markTodoAsDone (log : TodosJson) (f' h' now f h : String) :
    HuidExists (markTodoAsDone log f' h' now) f h = HuidExists log f h := by
  rcases log with ⟨_ | l⟩
  · rfl
  · simp only [markTodoAsDone, HuidExists]
    exact markFirst_any_entryHas f' h' now f h l

/-- Presence of a pair survives `addTodo`. -/
theorem huidExists_addTodo_mono (log : TodosJson) (t : TodoItem)
    (f h : String) (hpre : HuidExists log f h = true) :
    HuidExists (addTodo log t) f h = true := by
  rcases log with ⟨_ | l⟩
  · simp [HuidExists] at hpre
  · simp only [HuidExists, addTodo] at hpre ⊢
    simp [List.any_append, hpre]

/-- Claim C9: across any sequence of `addTodo` / `markTodoAsDone` operations,
every (filePath, identifier) pair present in the log stays present (markDone
only rewrites fields in place and removes no element — `markTodoAsDone`
even preserves the element count), and each `addTodo` grows the `todos`
sequence by exactly one element. -/
theorem log_append_only :
    (∀ (ops : List LogOp) (log : TodosJson) (f h : String),
      HuidExists log f h = true → HuidExists (applyOps log ops) f h = true) ∧
    (∀ (log : TodosJson) (f h now : String),
      todosLength (markTodoAsDone log f h now) = todosLength log) ∧
    (∀ (log : TodosJson) (t : TodoItem),
      todosLength (addTodo log t) = todosLength log + 1) := by
  refine ⟨?_, ?_, ?_⟩
  · intro ops
    induction ops with
    | nil => intro log f h hpre; exact hpre
    | cons op rest ih =>
      intro log f h hpre
      have hstep : HuidExists (applyOp log op) f h = true := by
        cases op with
        | add t => exact huidExists_addTodo_mono log t f h hpre
        | mark f' h' now =>
          show HuidExists (markTodoAsDone log f' h' now) f h = true
          rw [huidExists_markTodoAsDone]; exact hpre
      exact ih (applyOp log op) f h hstep
  · intro log f h now
    rcases log with ⟨_ | l⟩
    · rfl
    · simp only [markTodoAsDone, todosLength]
      simp [markFirst_length]
  · intro log t
    rcases log with ⟨_ | l⟩ <;> simp [addTodo, todosLength]

/-- Witness for `log_append_only`: a pair recorded in a one-element log is
still present after a further `addTodo` and a `markTodoAsDone` aimed at it. -/
theorem log_append_only_wit :
    HuidExists
      (applyOps
        (TodosJson.mk (some [[("f", [("h1",
          TodoFields.mk "a" false 1 "c" none none)])]]))
        [LogOp.add (TodoItem.mk "h2" "b" "g" 2 false "c2" none),
         LogOp.mark "f" "h1" "T"]) "f" "h1" = true :=
  log_append_only.1
    [LogOp.add (TodoItem.mk "h2" "b" "g" 2 false "c2" none),
     LogOp.mark "f" "h1" "T"]
    (TodosJson.mk (some [[("f", [("h1",
      TodoFields.mk "a" false 1 "c" none none)])]]))
    "f" "h1" (by decide)

/-! ## Claim C10 — frame of `markTodoAsDone` -/

/-- Claim C10: `markTodoAsDone` rewrites at most the `done` and completion
timestamp fields of the single (first) element satisfying the loop
condition: either no element matches and the document is unchanged, or the
array splits around that first match, every other element is returned as it
was, every other (filePath, huid) pair inside the matched element is
unchanged, and the matched fields keep their `heading`, `line`, `createdAt`
(and `markedAt`), only `done` becoming `true` and `modifiedAt` the new
timestamp. -/
theorem markTodoAsDone_frame (log : TodosJson) (f h now : String) :
    markTodoAsDone log f h now = log ∨
    (∃ l₁ e l₂ flds,
      log.todos = some (l₁ ++ e :: l₂) ∧
      (∀ e' ∈ l₁, entryHas e' f h = false) ∧
      pairFields e f h = some flds ∧
      (markTodoAsDone log f h now).todos
        = some (l₁ ++ markEntry f h now e :: l₂) ∧
      pairFields (markEntry f h now e) f h
        = some (TodoFields.mk flds.heading true flds.line flds.createdAt
            flds.markedAt (some now)) ∧
      (∀ f' h', f' ≠ f ∨ h' ≠ h →
        pairFields (markEntry f h now e) f' h' = pairFields e f' h')) := by
  rcases log with ⟨_ | l⟩
  · exact Or.inl rfl
  · rcases markFirst_spec f h now l with ⟨_, heq⟩ | ⟨l₁, e, l₂, hsplit, h₁, h₂, heq⟩
    · exact Or.inl (by simp [markTodoAsDone, heq])
    · subst hsplit
      rw [entryHas_eq_pairFields] at h₂
      rcases hflds : pairFields e f h with _ | flds
      · rw [hflds] at h₂; simp at h₂
      · refine Or.inr ⟨l₁, e, l₂, flds, rfl, h₁, hflds, ?_, ?_, ?_⟩
        · simp only [markTodoAsDone]
          rw [heq]
        · exact pairFields_markEntry_self e f h now flds hflds
        · intro f' h' hne
          exact pairFields_markEntry_other e f h now f' h' hne

end Justodo
